import Mathlib

/-!
Shallow embedding of the Highlight-App core (aggregator, Twitter client,
YouTube client, error taxonomy) translated from:
  src/highlight_app.py          (HighlightSearcher)
  src/clients/twitter_client.py (TwitterClient)
  src/clients/youtube_client.py (YouTubeClient)
  src/exceptions.py             (exception hierarchy)

Python strings are modelled as Lean `String`s, but every operation the code
performs on them (lexicographic comparison, `.lower()`, substring test `in`,
slicing `[:n]`) is defined on the underlying `List Char`, matching Python's
code-point-wise semantics on the ASCII data the program manipulates.
-/

namespace Highlight

instance {ε α : Type} [DecidableEq ε] [DecidableEq α] :
    DecidableEq (Except ε α) := fun x y =>
  match x, y with
  | .ok a, .ok b =>
      if h : a = b then .isTrue (by rw [h])
      else .isFalse (fun hc => h (Except.ok.inj hc))
  | .error a, .error b =>
      if h : a = b then .isTrue (by rw [h])
      else .isFalse (fun hc => h (Except.error.inj hc))
  | .ok _, .error _ => .isFalse (fun hc => Except.noConfusion hc)
  | .error _, .ok _ => .isFalse (fun hc => Except.noConfusion hc)

/-- Python exception classes of src/exceptions.py, plus kinds for exceptions
raised by third-party libraries (requests, tweepy, googleapiclient), which the
code only ever inspects via `str(e)`. -/
inductive ErrKind where
  | api
  | auth
  | rateLimit
  | notAvailable
  | pyGeneric
  | pyRequest
  deriving DecidableEq

/-- Python `isinstance(e, (APIError, APIAuthenticationError))`: in src/exceptions.py,
`APIAuthenticationError`, `RateLimitError` and `APINotAvailableError` are all
subclasses of `APIError`, so all four kinds are caught by that clause. -/
def ErrKind.isAPIError : ErrKind → Bool
  | .api | .auth | .rateLimit | .notAvailable => true
  | _ => false

/-- A Python exception value: class kind, `str(e)` message, and its chain
links — `__cause__` (set by `raise ... from ...`) and `__context__` (set
implicitly when an exception is raised while another is being handled).
One constructor per present/absent combination of the two links, so that
equality stays derivable. -/
inductive PyErr where
  | plain (kind : ErrKind) (msg : String)
  | withCause (kind : ErrKind) (msg : String) (cause : PyErr)
  | withContext (kind : ErrKind) (msg : String) (context : PyErr)
  | withBoth (kind : ErrKind) (msg : String) (cause : PyErr) (context : PyErr)
  deriving DecidableEq

def PyErr.kind : PyErr → ErrKind
  | .plain k _ => k
  | .withCause k _ _ => k
  | .withContext k _ _ => k
  | .withBoth k _ _ _ => k

def PyErr.msg : PyErr → String
  | .plain _ m => m
  | .withCause _ m _ => m
  | .withContext _ m _ => m
  | .withBoth _ m _ _ => m

/-- All exceptions reachable from `e` through `__cause__` / `__context__`
links (the exception chain, `e` itself included). -/
def PyErr.chainList : PyErr → List PyErr
  | .plain k m => [.plain k m]
  | .withCause k m c => .withCause k m c :: c.chainList
  | .withContext k m x => .withContext k m x :: x.chainList
  | .withBoth k m c x => .withBoth k m c x :: (c.chainList ++ x.chainList)

/-- Python `a <= b` on strings: lexicographic comparison of code points. -/
def strLeB : List Char → List Char → Bool
  | [], _ => true
  | _ :: _, [] => false
  | a :: as, b :: bs =>
      if a < b then true else if a = b then strLeB as bs else false

theorem strLeB_refl (l : List Char) : strLeB l l = true := by
  induction l with
  | nil => rfl
  | cons a as ih =>
      simp only [strLeB, lt_irrefl, if_false, if_pos rfl, ih, if_true]

theorem strLeB_total (l₁ l₂ : List Char) :
    strLeB l₁ l₂ = true ∨ strLeB l₂ l₁ = true := by
  induction l₁ generalizing l₂ with
  | nil => exact Or.inl rfl
  | cons a as ih =>
      cases l₂ with
      | nil => exact Or.inr rfl
      | cons b bs =>
          rcases lt_trichotomy a b with hab | hab | hab
          · left
            simp [strLeB, hab]
          · subst hab
            rcases ih bs with h | h
            · left
              simp [strLeB, h]
            · right
              simp [strLeB, h]
          · right
            simp [strLeB, hab]

theorem strLeB_trans {l₁ l₂ l₃ : List Char}
    (h₁ : strLeB l₁ l₂ = true) (h₂ : strLeB l₂ l₃ = true) :
    strLeB l₁ l₃ = true := by
  induction l₁ generalizing l₂ l₃ with
  | nil => rfl
  | cons a as ih =>
      cases l₂ with
      | nil => simp [strLeB] at h₁
      | cons b bs =>
          cases l₃ with
          | nil => simp [strLeB] at h₂
          | cons c cs =>
              simp only [strLeB] at h₁ h₂ ⊢
              rcases lt_trichotomy a b with hab | hab | hab
              · rcases lt_trichotomy b c with hbc | hbc | hbc
                · simp [lt_trans hab hbc]
                · subst hbc
                  simp [hab]
                · rw [if_neg (lt_asymm hbc), if_neg (ne_of_gt hbc)] at h₂
                  exact absurd h₂ (by simp)
              · subst hab
                rcases lt_trichotomy a c with hac | hac | hac
                · simp [hac]
                · subst hac
                  rw [if_neg (lt_irrefl a), if_pos rfl] at h₁ h₂ ⊢
                  exact ih h₁ h₂
                · rw [if_neg (lt_asymm hac), if_neg (ne_of_gt hac)] at h₂
                  exact absurd h₂ (by simp)
              · rw [if_neg (lt_asymm hab), if_neg (ne_of_gt hab)] at h₁
                exact absurd h₁ (by simp)

/-- One merged search-result dictionary, as constructed by the clients.
`score` and `upload_date` are optional because the aggregator reads them with
`x.get("score", 0)` / `x.get("upload_date", "")`, tolerating their absence. -/
structure Result where
  platform : String
  title : String
  url : String
  upload_date : Option String
  score : Option Int
  description : Option String
  views : Option Int
  likes : Option Int
  deriving DecidableEq

/-- The sort key of `HighlightSearcher._sort_results`:
`(x.get("score", 0), x.get("upload_date", ""))`. -/
def Result.key (r : Result) : Int × List Char :=
  (r.score.getD 0, (r.upload_date.getD "").data)

/-- Python `<=` on `(int, str)` pairs: lexicographic. -/
def KeyLe (x y : Int × List Char) : Prop :=
  x.1 < y.1 ∨ (x.1 = y.1 ∧ strLeB x.2 y.2 = true)

instance : DecidableRel KeyLe := fun x y =>
  if h1 : x.1 < y.1 then .isTrue (Or.inl h1)
  else
    if h2 : x.1 = y.1 then
      if h3 : strLeB x.2 y.2 = true then .isTrue (Or.inr ⟨h2, h3⟩)
      else .isFalse (by
        intro h
        rcases h with h | ⟨_, h⟩
        · exact h1 h
        · exact h3 h)
    else .isFalse (by
      intro h
      rcases h with h | ⟨h, _⟩
      · exact h1 h
      · exact h2 h)

theorem KeyLe_refl (x : Int × List Char) : KeyLe x x :=
  Or.inr ⟨rfl, strLeB_refl x.2⟩

theorem KeyLe_total (x y : Int × List Char) : KeyLe x y ∨ KeyLe y x := by
  rcases lt_trichotomy x.1 y.1 with h | h | h
  · exact Or.inl (Or.inl h)
  · rcases strLeB_total x.2 y.2 with hs | hs
    · exact Or.inl (Or.inr ⟨h, hs⟩)
    · exact Or.inr (Or.inr ⟨h.symm, hs⟩)
  · exact Or.inr (Or.inl h)

theorem KeyLe_trans {x y z : Int × List Char}
    (h₁ : KeyLe x y) (h₂ : KeyLe y z) : KeyLe x z := by
  rcases h₁ with h₁ | ⟨e₁, s₁⟩
  · rcases h₂ with h₂ | ⟨e₂, _⟩
    · exact Or.inl (lt_trans h₁ h₂)
    · exact Or.inl (e₂ ▸ h₁)
  · rcases h₂ with h₂ | ⟨e₂, s₂⟩
    · exact Or.inl (e₁ ▸ h₂)
    · exact Or.inr ⟨e₁.trans e₂, strLeB_trans s₁ s₂⟩

/-- The ordering used by `sorted(results, key=..., reverse=True)`:
`a` may precede `b` iff `key b ≤ key a` (descending). -/
def ResOrder (a b : Result) : Prop := KeyLe b.key a.key

instance : DecidableRel ResOrder := fun a b =>
  inferInstanceAs (Decidable (KeyLe b.key a.key))

instance : IsTotal Result ResOrder :=
  ⟨fun a b => (KeyLe_total b.key a.key).imp id id⟩

instance : IsTrans Result ResOrder :=
  ⟨fun _ _ _ h₁ h₂ => KeyLe_trans h₂ h₁⟩

/-- Model of `HighlightSearcher._sort_results`: Python's `sorted` is a stable sort;
with `reverse=True` elements whose keys compare equal keep their original
relative order. A stable sort for a fixed total preorder is unique, so the
stable insertion sort below is extensionally the same function. -/
def sortResults (l : List Result) : List Result :=
  l.insertionSort ResOrder

theorem sortResults_perm (l : List Result) : List.Perm (sortResults l) l :=
  List.perm_insertionSort ResOrder l

theorem sortResults_sorted (l : List Result) :
    (sortResults l).Pairwise ResOrder :=
  List.sorted_insertionSort ResOrder l

theorem sortResults_length (l : List Result) :
    (sortResults l).length = l.length :=
  (sortResults_perm l).length_eq

/-- Stability: the subsequence of results having any fixed sort key is
unchanged by the sort. -/
theorem sortResults_stable (l : List Result) (k : Int × List Char) :
    (sortResults l).filter (fun r => decide (r.key = k)) =
      l.filter (fun r => decide (r.key = k)) := by
  set p : Result → Bool := fun r => decide (r.key = k) with hp
  have hpair : (l.filter p).Pairwise ResOrder := by
    refine List.pairwise_of_forall_mem_list ?_
    intro a ha b hb
    have hak : a.key = k := by
      have := List.of_mem_filter ha
      simpa [hp] using this
    have hbk : b.key = k := by
      have := List.of_mem_filter hb
      simpa [hp] using this
    unfold ResOrder
    rw [hak, hbk]
    exact KeyLe_refl k
  have hsub : List.Sublist (l.filter p) (sortResults l) :=
    List.sublist_insertionSort hpair (List.filter_sublist l)
  have hsub2 : List.Sublist (l.filter p) ((sortResults l).filter p) := by
    have h2 : List.Sublist ((l.filter p).filter p) ((sortResults l).filter p) :=
      List.Sublist.filter p hsub
    simpa [List.filter_filter] using h2
  have hperm : List.Perm ((sortResults l).filter p) (l.filter p) :=
    (sortResults_perm l).filter p
  exact (hsub2.eq_of_length hperm.length_eq.symm).symm

/-- A registered client, as stored in `HighlightSearcher.clients`: its
`search(query, max_results)` method either returns a list of results or
raises an exception. -/
def Client : Type := String → Nat → Except PyErr (List Result)

/-- Model of `HighlightSearcher`: the client mapping (a Python dict, iterated in
insertion order, hence a list of name/client pairs) and `last_error`. -/
structure Searcher where
  clients : List (String × Client)
  last_error : Option PyErr

/-- The client loop of `HighlightSearcher.search`: accumulates
`results.extend(client_results)` on success and `self.last_error = e` on an
exception, never aborting the iteration. -/
def searchFold (query : String) (max_results : Nat) :
    List (String × Client) → List Result × Option PyErr →
      List Result × Option PyErr
  | [], acc => acc
  | c :: cs, acc =>
      match c.2 query max_results with
      | .ok rs => searchFold query max_results cs (acc.1 ++ rs, acc.2)
      | .error e => searchFold query max_results cs (acc.1, some e)

/-- Model of `HighlightSearcher.search`: resets `last_error` to `None`, runs every
client, and returns the sorted merged results together with the final
`last_error` state. The Python method cannot itself raise: every client
exception is caught by the `except Exception` clause, which is why the model
is a total function. -/
def Searcher.search (s : Searcher) (query : String) (max_results : Nat) :
    List Result × Option PyErr :=
  let st := searchFold query max_results s.clients ([], none)
  (sortResults st.1, st.2)

theorem searchFold_all_ok (query : String) (max_results : Nat)
    (cs : List (String × Client)) (lists : List (List Result))
    (h : List.Forall₂ (fun c rs => c.2 query max_results = Except.ok rs)
      cs lists) (acc : List Result × Option PyErr) :
    searchFold query max_results cs acc = (acc.1 ++ lists.flatten, acc.2) := by
  induction h generalizing acc with
  | nil => simp [searchFold]
  | cons hcr _ ih =>
      simp only [searchFold, hcr, ih, List.flatten_cons, List.append_assoc]

theorem searchFold_append (query : String) (max_results : Nat)
    (cs ds : List (String × Client)) (acc : List Result × Option PyErr) :
    searchFold query max_results (cs ++ ds) acc =
      searchFold query max_results ds (searchFold query max_results cs acc) := by
  induction cs generalizing acc with
  | nil => simp [searchFold]
  | cons c cs ih =>
      simp only [List.cons_append, searchFold]
      cases c.2 query max_results with
      | ok rs => exact ih _
      | error e => exact ih _

theorem searchFold_all_empty (query : String) (max_results : Nat)
    (cs : List (String × Client))
    (h : ∀ c ∈ cs, c.2 query max_results = Except.ok ([] : List Result))
    (acc : List Result × Option PyErr) :
    searchFold query max_results cs acc = acc := by
  induction cs generalizing acc with
  | nil => rfl
  | cons c cs ih =>
      have hc := h c (List.mem_cons_self c cs)
      simp only [searchFold, hc]
      rw [List.append_nil]
      exact ih (fun d hd => h d (List.mem_cons_of_mem c hd)) acc

/-! Concrete data used by the witness theorems. -/

def resM1 : Result :=
  ⟨"m1", "title1", "url1", some "2020-01-01", some 5, none, none, none⟩

def resM2a : Result :=
  ⟨"m2", "title2", "url2", some "2020-01-02", some 10, none, none, none⟩

def resM2b : Result :=
  ⟨"m2", "title3", "url3", some "2020-01-03", some 1, none, none, none⟩

def clientOkM1 : Client := fun _ _ => .ok [resM1]

def clientOkM2 : Client := fun _ _ => .ok [resM2a, resM2b]

def clientEmpty : Client := fun _ _ => .ok []

def errBad : PyErr := .plain .pyGeneric "bad search failed"

def errStale : PyErr := .plain .api "stale error from an earlier search"

def clientFail : Client := fun _ _ => .error errBad

def searcherW : Searcher :=
  ⟨[("m1", clientOkM1), ("m2", clientOkM2)], none⟩

/-- C1: with every registered provider succeeding, the aggregator's output is
the concatenation of the per-provider result lists (registration order),
stably sorted descending by `(score, upload_date)`; its length is the sum of
the per-provider counts — no drops, no de-duplication. -/
theorem C1_aggregator_sorted_merge
    (s : Searcher) (q : String) (n : Nat) (lists : List (List Result))
    (h : List.Forall₂ (fun c rs => c.2 q n = Except.ok rs) s.clients lists) :
    (s.search q n).1 = sortResults lists.flatten
    ∧ List.Perm (s.search q n).1 lists.flatten
    ∧ (s.search q n).1.Pairwise ResOrder
    ∧ (∀ k, (s.search q n).1.filter (fun r => decide (r.key = k)) =
        lists.flatten.filter (fun r => decide (r.key = k)))
    ∧ (s.search q n).1.length = (lists.map List.length).sum := by
  have hfold : searchFold q n s.clients ([], none) = (lists.flatten, none) := by
    rw [searchFold_all_ok q n s.clients lists h]
    simp
  have hout : (s.search q n).1 = sortResults lists.flatten := by
    unfold Searcher.search
    rw [hfold]
  refine ⟨hout, ?_, ?_, ?_, ?_⟩
  · rw [hout]
    exact sortResults_perm lists.flatten
  · rw [hout]
    exact sortResults_sorted lists.flatten
  · intro k
    rw [hout]
    exact sortResults_stable lists.flatten k
  · rw [hout, sortResults_length, List.length_flatten]

theorem C1_aggregator_sorted_merge_witness :
    List.Forall₂ (fun (c : String × Client) rs => c.2 "q" 5 = Except.ok rs)
      searcherW.clients [[resM1], [resM2a, resM2b]]
    ∧ (searcherW.search "q" 5).1 = [resM2a, resM1, resM2b]
    ∧ (searcherW.search "q" 5).1.length = 3 := by
  have h : List.Forall₂ (fun (c : String × Client) rs => c.2 "q" 5 = Except.ok rs)
      searcherW.clients [[resM1], [resM2a, resM2b]] :=
    .cons rfl (.cons rfl .nil)
  have hc := C1_aggregator_sorted_merge searcherW "q" 5 [[resM1], [resM2a, resM2b]] h
  exact ⟨h, hc.1.trans (by decide), by rw [hc.1]; decide⟩

/-- C2: `search` resets the last-error state, catches each provider's
exception without stopping the iteration (the model is a total function —
nothing escapes), records the failure as the current last-error, and:
with exactly one failing provider the output is built from the remaining
providers' results only with last-error that failure; with every provider
returning an empty list and no failure, the output is empty with last-error
unset. -/
theorem C2_error_isolation
    (pre post : List (String × Client)) (bad : String × Client)
    (q : String) (n : Nat) (e : PyErr) (old : Option PyErr)
    (preLists postLists : List (List Result))
    (hpre : List.Forall₂ (fun c rs => c.2 q n = Except.ok rs) pre preLists)
    (hbad : bad.2 q n = Except.error e)
    (hpost : List.Forall₂ (fun c rs => c.2 q n = Except.ok rs) post postLists) :
    Searcher.search ⟨pre ++ bad :: post, old⟩ q n =
      (sortResults (preLists.flatten ++ postLists.flatten), some e)
    ∧ List.Perm (Searcher.search ⟨pre ++ bad :: post, old⟩ q n).1
        (preLists.flatten ++ postLists.flatten)
    ∧ (∀ cs o₁ o₂ q' n',
        Searcher.search ⟨cs, o₁⟩ q' n' = Searcher.search ⟨cs, o₂⟩ q' n')
    ∧ (∀ cs o, (∀ c ∈ cs, c.2 q n = Except.ok ([] : List Result)) →
        Searcher.search ⟨cs, o⟩ q n = ([], none)) := by
  have hfold :
      searchFold q n (pre ++ bad :: post) ([], none) =
        (preLists.flatten ++ postLists.flatten, some e) := by
    rw [searchFold_append, searchFold_all_ok q n pre preLists hpre]
    simp only [searchFold, hbad]
    rw [searchFold_all_ok q n post postLists hpost]
    simp
  have hmain :
      Searcher.search ⟨pre ++ bad :: post, old⟩ q n =
        (sortResults (preLists.flatten ++ postLists.flatten), some e) := by
    unfold Searcher.search
    rw [hfold]
  refine ⟨hmain, ?_, fun _ _ _ _ _ => rfl, ?_⟩
  · rw [hmain]
    exact sortResults_perm _
  · intro cs o hall
    unfold Searcher.search
    rw [searchFold_all_empty q n cs hall]
    rfl

theorem C2_error_isolation_witness :
    (("bad", clientFail) : String × Client).2 "q" 3 = Except.error errBad
    ∧ Searcher.search
        ⟨[("good", clientOkM1), ("bad", clientFail), ("m2", clientOkM2)],
          some errStale⟩ "q" 3 =
        ([resM2a, resM1, resM2b], some errBad)
    ∧ Searcher.search ⟨[("empty", clientEmpty)], some errStale⟩ "q" 3 =
        ([], none) := by
  have hc := C2_error_isolation
    [("good", clientOkM1)] [("m2", clientOkM2)] ("bad", clientFail)
    "q" 3 errBad (some errStale) [[resM1]] [[resM2a, resM2b]]
    (.cons rfl .nil) rfl (.cons rfl .nil)
  refine ⟨rfl, hc.1.trans (by decide), ?_⟩
  refine hc.2.2.2 [("empty", clientEmpty)] (some errStale) ?_
  intro c hcmem
  have : c = ("empty", clientEmpty) := by
    simpa using hcmem
  rw [this]
  rfl

/-! ## Twitter client (src/clients/twitter_client.py) -/

/-- Python `pat in s` (substring containment on code points). -/
def hasSubstr (pat : List Char) : List Char → Bool
  | [] => pat.isEmpty
  | c :: t => pat.isPrefixOf (c :: t) || hasSubstr pat t

def strContains (s pat : String) : Bool := hasSubstr pat.data s.data

/-- Python `s.lower()` (the messages the code inspects are ASCII). -/
def pyLower (s : String) : String := ⟨s.data.map Char.toLower⟩

/-- Python `s[:n]`. -/
def pyTake (s : String) (n : Nat) : String := ⟨s.data.take n⟩

/-- A `media` entry of `tweet.entities`. -/
structure MediaEntity where
  expanded_url : Option String
  deriving DecidableEq

/-- A `urls` entry of `tweet.entities`. -/
structure UrlEntity where
  expanded_url : Option String
  deriving DecidableEq

/-- A tweet object as read by `_search_api`: `created_at` is the already
ISO-formatted timestamp when the attribute exists. -/
structure Tweet where
  media : List MediaEntity
  urls : List UrlEntity
  full_text : String
  created_at : Option String
  favorite_count : Int
  retweet_count : Int
  deriving DecidableEq

/-- One parsed tweet `div` of the scraped search page: optional text node,
optional link `href`, and whether an `AdaptiveMedia-video` marker is present. -/
structure ScrapeTweet where
  text : Option String
  href : Option String
  has_video : Bool
  deriving DecidableEq

/-- The two network backends of the Twitter client (tweepy's
`api.search_tweets` and `requests.get`+parse), plus `datetime.now()`.
A backend failure is the raised library exception's `str(e)`. -/
structure TwitterBackend where
  search_tweets : String → Nat → Except String (List Tweet)
  scrape_get : String → Except String (List ScrapeTweet)
  now : String

/-- The augmented primary query string: the query followed by
" basketball highlights filter:videos lang:en". -/
def twitterQuery (q : String) : String :=
  q ++ " basketball highlights filter:videos lang:en"

/-- The URL `_scrape_fallback` fetches. -/
def twitterScrapeUrl (q : String) : String :=
  "https://twitter.com/search?q=" ++ q ++
    " basketball highlights filter:videos lang:en&src=typed_query"

/-- The error classification of `_search_api`'s `except` clause:
`'Rate limit exceeded' in str(e)` → `RateLimitError` (no `from`, implicit
context), `'access level' in str(e).lower()` → `APIAuthenticationError`,
else a generic `APIError` prefixed "Twitter API error: ", raised `from e`. -/
def classifyTwError (msg : String) : PyErr :=
  let orig := PyErr.plain .pyGeneric msg
  if strContains msg "Rate limit exceeded" then
    .withContext .rateLimit "Twitter rate limit exceeded" orig
  else if strContains (pyLower msg) "access level" then
    .withContext .auth "Access level does not allow this operation" orig
  else
    .withBoth .api ("Twitter API error: " ++ msg) orig orig

/-- Link selection per tweet: first media entity's `expanded_url` if any
media is present, else first url entity's `expanded_url` if any, else none. -/
def tweetVideoUrl (t : Tweet) : Option String :=
  match t.media with
  | m :: _ => m.expanded_url
  | [] =>
      match t.urls with
      | u :: _ => u.expanded_url
      | [] => none

/-- The result dictionary `_search_api` appends for a tweet with link `u`. -/
def mkTweetResult (t : Tweet) (u : String) : Result :=
  ⟨"Twitter", pyTake t.full_text 100 ++ "...", u,
    some (t.created_at.getD ""), some (t.favorite_count + t.retweet_count),
    none, none, none⟩

/-- One iteration body of the `_search_api` tweet loop: append a result when
the selected link is truthy (present and non-empty). -/
def tweetStep (t : Tweet) (acc : List Result) : List Result :=
  match tweetVideoUrl t with
  | some u => if u = "" then acc else acc ++ [mkTweetResult t u]
  | none => acc

/-- The tweet loop of `_search_api`: run the step, then `break` once
`len(results) >= max_results` — checked every iteration, after the append. -/
def tweetLoop (m : Nat) : List Tweet → List Result → List Result
  | [], acc => acc
  | t :: ts, acc =>
      let acc' := tweetStep t acc
      if m ≤ acc'.length then acc' else tweetLoop m ts acc'

/-- Model of `TwitterClient._search_api`: requests `max_results * 2` raw candidates,
classifies a backend exception, otherwise runs the tweet loop. -/
def searchApi (be : TwitterBackend) (query : String) (max_results : Nat) :
    Except PyErr (List Result) :=
  match be.search_tweets (twitterQuery query) (max_results * 2) with
  | .error msg => .error (classifyTwError msg)
  | .ok tweets => .ok (tweetLoop max_results tweets [])

/-- The result dictionary `_scrape_fallback` appends: score 0 (no engagement
data) and the retrieval time as upload-date placeholder. -/
def mkScrapeResult (now : String) (st : ScrapeTweet) : Result :=
  ⟨"Twitter", pyTake (st.text.getD "") 100 ++ "...",
    "https://twitter.com" ++ st.href.getD "", some now, some 0,
    none, none, none⟩

/-- One iteration body of the `_scrape_fallback` loop: append when the tweet
has a video marker and a link. -/
def scrapeStep (now : String) (st : ScrapeTweet) (acc : List Result) : List Result :=
  if st.has_video && st.href.isSome then acc ++ [mkScrapeResult now st]
  else acc

/-- The scrape loop over `tweets[:max_results]`: run the step, then `break`
once `len(results) >= max_results`. -/
def scrapeLoop (now : String) (m : Nat) : List ScrapeTweet → List Result → List Result
  | [], acc => acc
  | st :: sts, acc =>
      let acc' := scrapeStep now st acc
      if m ≤ acc'.length then acc' else scrapeLoop now m sts acc'

/-- The exception raised out of `_scrape_fallback` when `requests` fails with
message `netMsg`: `APIError("Twitter scraping failed due to network error")
from e`, where the network exception itself was raised while `ambient` (the
primary failure) was being handled, so carries it as `__context__`. -/
def fallbackNetErr (netMsg : String) (ambient : PyErr) : PyErr :=
  .withBoth .api "Twitter scraping failed due to network error"
    (.withContext .pyRequest netMsg ambient)
    (.withContext .pyRequest netMsg ambient)

/-- Model of `TwitterClient._scrape_fallback`, called while `ambient` is the exception
being handled. The parse stage of the model is total, so the generic
`except Exception → APIError("Twitter scraping failed")` clause is
unreachable here. -/
def scrapeFallback (be : TwitterBackend) (query : String) (max_results : Nat)
    (ambient : PyErr) : Except PyErr (List Result) :=
  match be.scrape_get (twitterScrapeUrl query) with
  | .error netMsg => .error (fallbackNetErr netMsg ambient)
  | .ok stweets => .ok (scrapeLoop be.now max_results (stweets.take max_results) [])

/-- Model of `TwitterClient.search`: the primary/fallback protocol. The first
`except (APIError, APIAuthenticationError)` clause catches every `APIError`
subclass (`RateLimitError` and `APINotAvailableError` included); everything
else is wrapped as `APIError("Unexpected error during Twitter search") from e`
(unreachable in the model because `_search_api` only produces
`APIError`-family errors, but kept to mirror the code). -/
def twitterSearch (be : TwitterBackend) (query : String) (max_results : Nat)
    (use_fallback : Bool) : Except PyErr (List Result) :=
  match searchApi be query max_results with
  | .ok rs => .ok rs
  | .error e =>
      if e.kind.isAPIError then
        if use_fallback then
          match scrapeFallback be query max_results e with
          | .ok rs => .ok rs
          | .error fe =>
              .error (.withBoth .notAvailable
                "Twitter search unavailable: both API and fallback failed"
                fe fe)
        else .error e
      else .error (.withBoth .api "Unexpected error during Twitter search" e e)

/-! ## YouTube client (src/clients/youtube_client.py) -/

/-- One item of the phase-1 `search.list` response; `videoId` is `none` when
`"id" in item and "videoId" in item["id"]` fails. -/
structure SearchItem where
  videoId : Option String
  deriving DecidableEq

/-- One item of the phase-2 `videos.list` response (`id` read with
`item.get('id', '')`; snippet/statistics fields optional). `viewCount` is the
already-parsed integer counter. -/
structure VideoItem where
  id : String
  title : Option String
  publishedAt : Option String
  viewCount : Option Int
  likeCount : Option Int
  description : Option String
  deriving DecidableEq

/-- The two googleapiclient calls the client performs; a failure is the
raised exception's `str(e)`. -/
structure YouTubeBackend where
  search_list : String → Nat → Except String (List SearchItem)
  videos_list : String → Except String (List VideoItem)

/-- The augmented YouTube query string: the query followed by " basketball highlights". -/
def youtubeQuery (q : String) : String := q ++ " basketball highlights"

/-- The `except` clause of `YouTubeClient.search`: `"api key"`,
`"keyinvalid"` or `"403"` in the lowercased message → authentication error;
else `"quota"` → authentication error with the distinct quota message;
anything else → generic `APIError`. All three use `raise ... from e`. -/
def classifyYtError (msg : String) : PyErr :=
  let orig := PyErr.plain .pyGeneric msg
  let low := pyLower msg
  if strContains low "api key" || strContains low "keyinvalid" ||
      strContains low "403" then
    .withBoth .auth "YouTube API authentication failed" orig orig
  else if strContains low "quota" then
    .withBoth .auth "YouTube API quota exceeded" orig orig
  else
    .withBoth .api ("YouTube search failed: " ++ msg) orig orig

/-- The result dictionary `YouTubeClient.search` appends for one detail item
(no filtering of any kind is applied to the items). -/
def mkYtResult (it : VideoItem) : Result :=
  ⟨"YouTube", it.title.getD "", "https://www.youtube.com/watch?v=" ++ it.id,
    some (it.publishedAt.getD ""), some (it.viewCount.getD 0),
    some (it.description.getD ""), some (it.viewCount.getD 0),
    some (it.likeCount.getD 0)⟩

/-- Model of `YouTubeClient.search`: phase-1 discovery, id extraction, early return on
an empty id list, phase-2 batch detail call, result construction. The
`if not self.api` guard of the source is dead after a successful `__init__`
and is not modelled. -/
def youtubeSearch (be : YouTubeBackend) (query : String) (max_results : Nat) :
    Except PyErr (List Result) :=
  match be.search_list (youtubeQuery query) max_results with
  | .error msg => .error (classifyYtError msg)
  | .ok sitems =>
      let video_ids := sitems.filterMap SearchItem.videoId
      if video_ids.isEmpty then .ok []
      else
        match be.videos_list (String.intercalate "," video_ids) with
        | .error msg => .error (classifyYtError msg)
        | .ok vitems => .ok (vitems.map mkYtResult)

theorem PyErr.self_mem_chainList (e : PyErr) : e ∈ e.chainList := by
  cases e <;> simp [PyErr.chainList]

theorem classifyTwError_kind_isAPIError (msg : String) :
    (classifyTwError msg).kind.isAPIError = true := by
  unfold classifyTwError
  split_ifs <;> rfl

/-! Concrete Twitter/YouTube data for witnesses and counterexamples. -/

def tweetV : Tweet :=
  ⟨[⟨some "https://t.co/v1"⟩], [], "great dunk", some "2024-01-01T00:00:00",
    3, 2⟩

def scrapeT : ScrapeTweet := ⟨some "fallback tweet text", some "/x/status/1", true⟩

def beC3 : TwitterBackend :=
  ⟨fun _ _ => .error "boom", fun _ => .ok [scrapeT], "2025-01-01T00:00:00"⟩

def beC6 : TwitterBackend :=
  ⟨fun _ _ => .error "boom", fun _ => .error "connection refused", "2025-01-01T00:00:00"⟩

/-- C3 counterexample: the primary strategy fails with a failure that carries
neither a rate-limit nor an access-level signal (it is classified as a
generic `APIError`), yet the fallback IS attempted and its results returned —
the original error does not propagate. The claim's "any other failure class
propagates directly without attempting fallback" is false on the code:
`except (APIError, APIAuthenticationError)` catches every `APIError`
subclass, the generic one included. -/
theorem C3_counterexample_generic_error_falls_back :
    strContains "boom" "Rate limit exceeded" = false
    ∧ strContains (pyLower "boom") "access level" = false
    ∧ searchApi beC3 "q" 5 = .error (classifyTwError "boom")
    ∧ (classifyTwError "boom").kind = .api
    ∧ twitterSearch beC3 "q" 5 true =
        .ok [mkScrapeResult "2025-01-01T00:00:00" scrapeT] := by
  refine ⟨by decide, by decide, rfl, by decide, by decide⟩

/-- C3 amended: every failure `_search_api` raises is in the `APIError`
family (rate-limit, access-level, or generic API), and with fallback allowed
the Fallback strategy is attempted for all of them, its results returned;
with fallback disallowed the classified primary failure propagates. -/
theorem C3_amended_fallback_on_any_api_error
    (be : TwitterBackend) (q : String) (n : Nat) (msg : String)
    (stweets : List ScrapeTweet)
    (hfail : be.search_tweets (twitterQuery q) (n * 2) = .error msg)
    (hscrape : be.scrape_get (twitterScrapeUrl q) = .ok stweets) :
    searchApi be q n = .error (classifyTwError msg)
    ∧ (classifyTwError msg).kind.isAPIError = true
    ∧ twitterSearch be q n true = .ok (scrapeLoop be.now n (stweets.take n) [])
    ∧ twitterSearch be q n false = .error (classifyTwError msg) := by
  have hsa : searchApi be q n = .error (classifyTwError msg) := by
    unfold searchApi
    rw [hfail]
  have hk := classifyTwError_kind_isAPIError msg
  refine ⟨hsa, hk, ?_, ?_⟩
  · unfold twitterSearch scrapeFallback
    rw [hsa, hscrape]
    simp [hk]
  · unfold twitterSearch
    rw [hsa]
    simp [hk]

theorem C3_amended_fallback_on_any_api_error_witness :
    beC3.search_tweets (twitterQuery "q") (5 * 2) = .error "boom"
    ∧ beC3.scrape_get (twitterScrapeUrl "q") = .ok [scrapeT]
    ∧ twitterSearch beC3 "q" 5 true =
        .ok [mkScrapeResult "2025-01-01T00:00:00" scrapeT]
    ∧ twitterSearch beC3 "q" 5 false = .error (classifyTwError "boom") := by
  have h := C3_amended_fallback_on_any_api_error beC3 "q" 5 "boom" [scrapeT]
    rfl rfl
  exact ⟨rfl, rfl, h.2.2.1.trans (by decide), h.2.2.2⟩

/-- C6: when the primary strategy fails with a fallback-triggering error and
the fallback's network request also fails, `TwitterClient.search` raises
`APINotAvailableError` whose exception chain (following `__cause__` /
`__context__`) contains both the classified primary failure and the fallback
failure. -/
theorem C6_terminal_not_available
    (be : TwitterBackend) (q : String) (n : Nat) (msg netMsg : String)
    (hfail : be.search_tweets (twitterQuery q) (n * 2) = .error msg)
    (hscrape : be.scrape_get (twitterScrapeUrl q) = .error netMsg) :
    twitterSearch be q n true = .error
      (.withBoth .notAvailable
        "Twitter search unavailable: both API and fallback failed"
        (fallbackNetErr netMsg (classifyTwError msg))
        (fallbackNetErr netMsg (classifyTwError msg)))
    ∧ (PyErr.withBoth .notAvailable
        "Twitter search unavailable: both API and fallback failed"
        (fallbackNetErr netMsg (classifyTwError msg))
        (fallbackNetErr netMsg (classifyTwError msg))).kind = .notAvailable
    ∧ classifyTwError msg ∈
        (PyErr.withBoth .notAvailable
          "Twitter search unavailable: both API and fallback failed"
          (fallbackNetErr netMsg (classifyTwError msg))
          (fallbackNetErr netMsg (classifyTwError msg))).chainList
    ∧ fallbackNetErr netMsg (classifyTwError msg) ∈
        (PyErr.withBoth .notAvailable
          "Twitter search unavailable: both API and fallback failed"
          (fallbackNetErr netMsg (classifyTwError msg))
          (fallbackNetErr netMsg (classifyTwError msg))).chainList := by
  have hsa : searchApi be q n = .error (classifyTwError msg) := by
    unfold searchApi
    rw [hfail]
  have hk := classifyTwError_kind_isAPIError msg
  have hamb : classifyTwError msg ∈
      (PyErr.withContext .pyRequest netMsg (classifyTwError msg)).chainList := by
    simp only [PyErr.chainList]
    exact List.mem_cons_of_mem _ (PyErr.self_mem_chainList _)
  have hfe : classifyTwError msg ∈
      (fallbackNetErr netMsg (classifyTwError msg)).chainList := by
    simp only [fallbackNetErr, PyErr.chainList]
    exact List.mem_cons_of_mem _ (List.mem_append_left _ hamb)
  refine ⟨?_, rfl, ?_, ?_⟩
  · unfold twitterSearch scrapeFallback
    rw [hsa, hscrape]
    simp [hk]
  · simp only [PyErr.chainList]
    exact List.mem_cons_of_mem _ (List.mem_append_left _ hfe)
  · simp only [PyErr.chainList]
    exact List.mem_cons_of_mem _
      (List.mem_append_left _ (PyErr.self_mem_chainList _))

theorem C6_terminal_not_available_witness :
    beC6.search_tweets (twitterQuery "q") (5 * 2) = .error "boom"
    ∧ beC6.scrape_get (twitterScrapeUrl "q") = .error "connection refused"
    ∧ twitterSearch beC6 "q" 5 true = .error
        (.withBoth .notAvailable
          "Twitter search unavailable: both API and fallback failed"
          (fallbackNetErr "connection refused" (classifyTwError "boom"))
          (fallbackNetErr "connection refused" (classifyTwError "boom")))
    ∧ classifyTwError "boom" ∈
        (PyErr.withBoth .notAvailable
          "Twitter search unavailable: both API and fallback failed"
          (fallbackNetErr "connection refused" (classifyTwError "boom"))
          (fallbackNetErr "connection refused" (classifyTwError "boom"))).chainList := by
  have h := C6_terminal_not_available beC6 "q" 5 "boom" "connection refused"
    rfl rfl
  exact ⟨rfl, rfl, h.1, h.2.2.1⟩

/-! C4 concrete data: a detail item with 49,999 views. -/

def sItemW : SearchItem := ⟨some "vid49"⟩

def vItemLow : VideoItem :=
  ⟨"vid49", some "Low view highlight", some "2024-05-05T00:00:00Z",
    some 49999, some 10, some "desc"⟩

def ybeC4 : YouTubeBackend :=
  ⟨fun _ _ => .ok [sItemW], fun _ => .ok [vItemLow]⟩

/-- C4 counterexample: a candidate with view count 49,999 (below the claimed
50,000 threshold) DOES appear in the returned results — the source applies no
view-count (or duration) filter at all; it does not even request
`contentDetails`, so no duration is available to filter on. -/
theorem C4_counterexample_low_view_item_returned :
    youtubeSearch ybeC4 "q" 5 = .ok [mkYtResult vItemLow]
    ∧ (mkYtResult vItemLow).score = some 49999
    ∧ (mkYtResult vItemLow).views = some 49999 := by
  refine ⟨by decide, rfl, rfl⟩

/-- C4 amended: after the detail fetch the provider applies no view-count or
duration filtering: every item of the phase-2 detail response is turned into
exactly one returned Result, in response order. -/
theorem C4_amended_no_postfetch_filtering
    (be : YouTubeBackend) (q : String) (n : Nat)
    (sitems : List SearchItem) (vitems : List VideoItem)
    (h1 : be.search_list (youtubeQuery q) n = .ok sitems)
    (hne : sitems.filterMap SearchItem.videoId ≠ [])
    (h2 : be.videos_list
        (String.intercalate "," (sitems.filterMap SearchItem.videoId)) =
      .ok vitems) :
    youtubeSearch be q n = .ok (vitems.map mkYtResult)
    ∧ ∀ it ∈ vitems, mkYtResult it ∈ vitems.map mkYtResult := by
  constructor
  · unfold youtubeSearch
    rw [h1]
    have hemp : (sitems.filterMap SearchItem.videoId).isEmpty = false := by
      cases hl : sitems.filterMap SearchItem.videoId with
      | nil => exact absurd hl hne
      | cons a l => rfl
    simp only [hemp, Bool.false_eq_true, if_false, h2]
  · intro it hit
    exact List.mem_map_of_mem mkYtResult hit

theorem C4_amended_no_postfetch_filtering_witness :
    ybeC4.search_list (youtubeQuery "q") 5 = .ok [sItemW]
    ∧ [sItemW].filterMap SearchItem.videoId = ["vid49"]
    ∧ ybeC4.videos_list
        (String.intercalate "," ([sItemW].filterMap SearchItem.videoId)) =
      .ok [vItemLow]
    ∧ youtubeSearch ybeC4 "q" 5 = .ok ([vItemLow].map mkYtResult) := by
  have h := C4_amended_no_postfetch_filtering ybeC4 "q" 5 [sItemW] [vItemLow]
    rfl (by decide) rfl
  exact ⟨rfl, by decide, rfl, h.1⟩

theorem tweetStep_eq_none {t : Tweet} (acc : List Result)
    (h : tweetVideoUrl t = none) : tweetStep t acc = acc := by
  unfold tweetStep
  rw [h]

theorem tweetStep_eq_some {t : Tweet} {u : String} (acc : List Result)
    (h : tweetVideoUrl t = some u) :
    tweetStep t acc = if u = "" then acc else acc ++ [mkTweetResult t u] := by
  unfold tweetStep
  rw [h]

theorem tweetStep_length_le (t : Tweet) (acc : List Result) :
    (tweetStep t acc).length ≤ acc.length + 1 := by
  cases hvu : tweetVideoUrl t with
  | none =>
      rw [tweetStep_eq_none acc hvu]
      exact Nat.le_succ _
  | some u =>
      rw [tweetStep_eq_some acc hvu]
      split
      · exact Nat.le_succ _
      · simp

theorem scrapeStep_length_le (now : String) (st : ScrapeTweet) (acc : List Result) :
    (scrapeStep now st acc).length ≤ acc.length + 1 := by
  unfold scrapeStep
  split
  · simp
  · exact Nat.le_succ _

theorem tweetLoop_length_le (m : Nat) (ts : List Tweet) :
    ∀ acc : List Result, (tweetLoop m ts acc).length ≤ acc.length + ts.length := by
  induction ts with
  | nil => intro acc; simp [tweetLoop]
  | cons t ts ih =>
      intro acc
      simp only [tweetLoop]
      have hstep := tweetStep_length_le t acc
      split
      · simp only [List.length_cons]
        omega
      · have := ih (tweetStep t acc)
        simp only [List.length_cons]
        omega

theorem tweetLoop_length_le_of_lt (m : Nat) (ts : List Tweet) :
    ∀ acc : List Result, acc.length < m → (tweetLoop m ts acc).length ≤ m := by
  induction ts with
  | nil => intro acc h; exact Nat.le_of_lt h
  | cons t ts ih =>
      intro acc h
      simp only [tweetLoop]
      have hstep := tweetStep_length_le t acc
      split
      · omega
      · rename_i hlt
        exact ih (tweetStep t acc) (by omega)

theorem scrapeLoop_length_le (now : String) (m : Nat) (sts : List ScrapeTweet) :
    ∀ acc : List Result, (scrapeLoop now m sts acc).length ≤ acc.length + sts.length := by
  induction sts with
  | nil => intro acc; simp [scrapeLoop]
  | cons st sts ih =>
      intro acc
      simp only [scrapeLoop]
      have hstep := scrapeStep_length_le now st acc
      split
      · simp only [List.length_cons]
        omega
      · have := ih (scrapeStep now st acc)
        simp only [List.length_cons]
        omega

def beW5 : TwitterBackend :=
  ⟨fun _ _ => .ok [tweetV, tweetV], fun _ => .ok [scrapeT],
    "2025-01-01T00:00:00"⟩

/-- C5: every provider path returns at most `max_results` results, given a
backend that honors the raw-candidate counts the code asks it for (the
primary Twitter path requests `2 × max_results` raw tweets, YouTube requests
`max_results` ids in phase 1 and at most one detail object per id in
phase 2; the scrape path needs no backend assumption since it slices
`tweets[:max_results]`). -/
theorem C5_max_results_cap
    (be : TwitterBackend) (ybe : YouTubeBackend) (q : String) (n : Nat) :
    (∀ tweets rs, be.search_tweets (twitterQuery q) (n * 2) = .ok tweets →
        tweets.length ≤ n * 2 → searchApi be q n = .ok rs → rs.length ≤ n)
    ∧ (∀ amb rs, scrapeFallback be q n amb = .ok rs → rs.length ≤ n)
    ∧ (∀ sitems vitems rs,
        ybe.search_list (youtubeQuery q) n = .ok sitems →
        sitems.length ≤ n →
        ybe.videos_list (String.intercalate ","
          (sitems.filterMap SearchItem.videoId)) = .ok vitems →
        vitems.length ≤ (sitems.filterMap SearchItem.videoId).length →
        youtubeSearch ybe q n = .ok rs → rs.length ≤ n) := by
  refine ⟨?_, ?_, ?_⟩
  · intro tweets rs htw hlen hok
    unfold searchApi at hok
    rw [htw] at hok
    have hrs : rs = tweetLoop n tweets [] := (Except.ok.inj hok).symm
    subst hrs
    rcases Nat.eq_zero_or_pos n with h0 | hpos
    · subst h0
      have hb := tweetLoop_length_le 0 tweets []
      simp only [List.length_nil, Nat.zero_add] at hb
      omega
    · exact tweetLoop_length_le_of_lt n tweets [] (by simpa using hpos)
  · intro amb rs hok
    unfold scrapeFallback at hok
    cases hsg : be.scrape_get (twitterScrapeUrl q) with
    | error netMsg => rw [hsg] at hok; exact absurd hok (by simp)
    | ok stweets =>
        rw [hsg] at hok
        have hrs : rs = scrapeLoop be.now n (stweets.take n) [] :=
          (Except.ok.inj hok).symm
        subst hrs
        have hb := scrapeLoop_length_le be.now n (stweets.take n) []
        have ht : (stweets.take n).length ≤ n := by
          simp [List.length_take]
        simp only [List.length_nil, Nat.zero_add] at hb
        omega
  · intro sitems vitems rs h1 hs1 h2 hv2 hok
    unfold youtubeSearch at hok
    rw [h1] at hok
    by_cases hemp : (sitems.filterMap SearchItem.videoId).isEmpty = true
    · simp only [hemp, if_true] at hok
      have hrs : rs = [] := (Except.ok.inj hok).symm
      subst hrs
      exact Nat.zero_le n
    · simp only [hemp, Bool.false_eq_true, if_false] at hok
      rw [h2] at hok
      have hrs : rs = vitems.map mkYtResult := (Except.ok.inj hok).symm
      subst hrs
      have hf : (sitems.filterMap SearchItem.videoId).length ≤ sitems.length :=
        List.length_filterMap_le _ _
      simp only [List.length_map]
      omega

theorem C5_max_results_cap_witness :
    beW5.search_tweets (twitterQuery "q") (1 * 2) = .ok [tweetV, tweetV]
    ∧ ([tweetV, tweetV] : List Tweet).length ≤ 1 * 2
    ∧ searchApi beW5 "q" 1 = .ok [mkTweetResult tweetV "https://t.co/v1"]
    ∧ ([mkTweetResult tweetV "https://t.co/v1"] : List Result).length ≤ 1
    ∧ scrapeFallback beW5 "q" 1 errBad =
        .ok [mkScrapeResult "2025-01-01T00:00:00" scrapeT]
    ∧ ([mkScrapeResult "2025-01-01T00:00:00" scrapeT] : List Result).length ≤ 1
    ∧ youtubeSearch ybeC4 "q" 1 = .ok [mkYtResult vItemLow]
    ∧ ([mkYtResult vItemLow] : List Result).length ≤ 1 := by
  have h := C5_max_results_cap beW5 ybeC4 "q" 1
  have hapi : searchApi beW5 "q" 1 = .ok [mkTweetResult tweetV "https://t.co/v1"] := by
    decide
  have hscr : scrapeFallback beW5 "q" 1 errBad =
      .ok [mkScrapeResult "2025-01-01T00:00:00" scrapeT] := by
    decide
  have hyt : youtubeSearch ybeC4 "q" 1 = .ok [mkYtResult vItemLow] := by
    decide
  refine ⟨rfl, by decide, hapi, ?_, hscr, ?_, hyt, ?_⟩
  · exact h.1 [tweetV, tweetV] _ rfl (by decide) hapi
  · exact h.2.1 errBad _ hscr
  · exact h.2.2 [sItemW] [vItemLow] _ rfl (by decide) rfl (by decide) hyt

def ybeC7 : YouTubeBackend :=
  ⟨fun _ _ => .error "quotaExceeded: request quota", fun _ => .error "unused"⟩

/-- C7: a backend failure in either phase of `YouTubeClient.search` is mapped
by message content: invalid/missing-key indicators (`"api key"`,
`"keyinvalid"`, `"403"` in the lowercased message) give an Authentication
error; otherwise a quota indicator gives an Authentication error with the
distinct quota message; anything else gives a generic API error. -/
theorem C7_youtube_error_mapping
    (be : YouTubeBackend) (q : String) (n : Nat) (msg : String)
    (h : be.search_list (youtubeQuery q) n = .error msg
      ∨ ∃ sitems, be.search_list (youtubeQuery q) n = .ok sitems
          ∧ sitems.filterMap SearchItem.videoId ≠ []
          ∧ be.videos_list (String.intercalate ","
              (sitems.filterMap SearchItem.videoId)) = .error msg) :
    youtubeSearch be q n = .error (classifyYtError msg)
    ∧ ((strContains (pyLower msg) "api key" ||
        strContains (pyLower msg) "keyinvalid" ||
        strContains (pyLower msg) "403") = true →
        (classifyYtError msg).kind = .auth
        ∧ (classifyYtError msg).msg = "YouTube API authentication failed")
    ∧ ((strContains (pyLower msg) "api key" ||
        strContains (pyLower msg) "keyinvalid" ||
        strContains (pyLower msg) "403") = false →
        strContains (pyLower msg) "quota" = true →
        (classifyYtError msg).kind = .auth
        ∧ (classifyYtError msg).msg = "YouTube API quota exceeded")
    ∧ ((strContains (pyLower msg) "api key" ||
        strContains (pyLower msg) "keyinvalid" ||
        strContains (pyLower msg) "403") = false →
        strContains (pyLower msg) "quota" = false →
        (classifyYtError msg).kind = .api
        ∧ (classifyYtError msg).msg = "YouTube search failed: " ++ msg) := by
  refine ⟨?_, ?_, ?_, ?_⟩
  · rcases h with h1 | ⟨sitems, h1, hne, h2⟩
    · unfold youtubeSearch
      rw [h1]
    · unfold youtubeSearch
      rw [h1]
      have hemp : (sitems.filterMap SearchItem.videoId).isEmpty = false := by
        cases hl : sitems.filterMap SearchItem.videoId with
        | nil => exact absurd hl hne
        | cons a l => rfl
      simp only [hemp, Bool.false_eq_true, if_false, h2]
  · intro hcond
    unfold classifyYtError
    simp only [hcond, if_true]
    exact ⟨rfl, rfl⟩
  · intro hcond hquota
    unfold classifyYtError
    simp only [hcond, hquota, Bool.false_eq_true, if_false, if_true]
    exact ⟨rfl, rfl⟩
  · intro hcond hquota
    unfold classifyYtError
    simp only [hcond, hquota, Bool.false_eq_true, if_false]
    exact ⟨rfl, rfl⟩

theorem C7_youtube_error_mapping_witness :
    ybeC7.search_list (youtubeQuery "q") 5 = .error "quotaExceeded: request quota"
    ∧ youtubeSearch ybeC7 "q" 5 =
        .error (classifyYtError "quotaExceeded: request quota")
    ∧ (classifyYtError "quotaExceeded: request quota").kind = .auth
    ∧ (classifyYtError "quotaExceeded: request quota").msg =
        "YouTube API quota exceeded" := by
  have h := C7_youtube_error_mapping ybeC7 "q" 5 "quotaExceeded: request quota"
    (Or.inl rfl)
  have hq := h.2.2.1 (by decide) (by decide)
  exact ⟨rfl, h.1, hq.1, hq.2⟩

def slC8 : String → Nat → Except String (List SearchItem) :=
  fun _ _ => .ok [⟨none⟩]

/-- C8: when the phase-1 discovery response yields no usable video id, the
phase-2 detail call is never made (the result is the same for every possible
detail-phase backend) and the search returns an empty list, not an error. -/
theorem C8_empty_ids_skip_detail
    (sl : String → Nat → Except String (List SearchItem)) (q : String) (n : Nat)
    (sitems : List SearchItem)
    (h1 : sl (youtubeQuery q) n = .ok sitems)
    (h2 : sitems.filterMap SearchItem.videoId = []) :
    ∀ vl : String → Except String (List VideoItem),
      youtubeSearch ⟨sl, vl⟩ q n = .ok [] := by
  intro vl
  simp [youtubeSearch, h1, h2]

theorem C8_empty_ids_skip_detail_witness :
    slC8 (youtubeQuery "q") 3 = .ok [⟨none⟩]
    ∧ ([(⟨none⟩ : SearchItem)]).filterMap SearchItem.videoId = []
    ∧ youtubeSearch ⟨slC8, fun _ => .error "detail call must not happen"⟩
        "q" 3 = .ok [] := by
  exact ⟨rfl, rfl,
    C8_empty_ids_skip_detail slC8 "q" 3 [⟨none⟩] rfl rfl
      (fun _ => .error "detail call must not happen")⟩

theorem tweetStep_mem {t : Tweet} {acc : List Result} {r : Result}
    (h : r ∈ tweetStep t acc) :
    r ∈ acc ∨ ∃ u, tweetVideoUrl t = some u ∧ u ≠ "" ∧ r = mkTweetResult t u := by
  cases hvu : tweetVideoUrl t with
  | none =>
      rw [tweetStep_eq_none acc hvu] at h
      exact Or.inl h
  | some u =>
      rw [tweetStep_eq_some acc hvu] at h
      by_cases hu : u = ""
      · rw [if_pos hu] at h
        exact Or.inl h
      · rw [if_neg hu] at h
        rcases List.mem_append.mp h with h | h
        · exact Or.inl h
        · exact Or.inr ⟨u, rfl, hu, List.mem_singleton.mp h⟩

theorem tweetLoop_mem (m : Nat) (ts : List Tweet) :
    ∀ (acc : List Result) (r : Result), r ∈ tweetLoop m ts acc →
      r ∈ acc ∨ ∃ t ∈ ts, ∃ u,
        tweetVideoUrl t = some u ∧ u ≠ "" ∧ r = mkTweetResult t u := by
  induction ts with
  | nil => intro acc r h; exact Or.inl h
  | cons t ts ih =>
      intro acc r h
      simp only [tweetLoop] at h
      have hcase : r ∈ tweetStep t acc ∨ r ∈ tweetLoop m ts (tweetStep t acc) := by
        split at h
        · exact Or.inl h
        · exact Or.inr h
      have hstep : r ∈ tweetStep t acc →
          r ∈ acc ∨ ∃ t' ∈ t :: ts, ∃ u,
            tweetVideoUrl t' = some u ∧ u ≠ "" ∧ r = mkTweetResult t' u := by
        intro hs
        rcases tweetStep_mem hs with h' | ⟨u, hvu, hu, heq⟩
        · exact Or.inl h'
        · exact Or.inr ⟨t, List.mem_cons_self t ts, u, hvu, hu, heq⟩
      rcases hcase with hs | hl
      · exact hstep hs
      · rcases ih (tweetStep t acc) r hl with h' | ⟨t', ht', rest⟩
        · exact hstep h'
        · exact Or.inr ⟨t', List.mem_cons_of_mem t ht', rest⟩

theorem scrapeStep_mem {now : String} {st : ScrapeTweet} {acc : List Result}
    {r : Result} (h : r ∈ scrapeStep now st acc) :
    r ∈ acc ∨ r = mkScrapeResult now st := by
  unfold scrapeStep at h
  split at h
  · rcases List.mem_append.mp h with h | h
    · exact Or.inl h
    · exact Or.inr (List.mem_singleton.mp h)
  · exact Or.inl h

theorem scrapeLoop_mem (now : String) (m : Nat) (sts : List ScrapeTweet) :
    ∀ (acc : List Result) (r : Result), r ∈ scrapeLoop now m sts acc →
      r ∈ acc ∨ ∃ st ∈ sts, r = mkScrapeResult now st := by
  induction sts with
  | nil => intro acc r h; exact Or.inl h
  | cons st sts ih =>
      intro acc r h
      simp only [scrapeLoop] at h
      have hcase : r ∈ scrapeStep now st acc ∨
          r ∈ scrapeLoop now m sts (scrapeStep now st acc) := by
        split at h
        · exact Or.inl h
        · exact Or.inr h
      have hstep : r ∈ scrapeStep now st acc →
          r ∈ acc ∨ ∃ st' ∈ st :: sts, r = mkScrapeResult now st' := by
        intro hs
        rcases scrapeStep_mem hs with h' | heq
        · exact Or.inl h'
        · exact Or.inr ⟨st, List.mem_cons_self st sts, heq⟩
      rcases hcase with hs | hl
      · exact hstep hs
      · rcases ih (scrapeStep now st acc) r hl with h' | ⟨st', hst', heq⟩
        · exact hstep h'
        · exact Or.inr ⟨st', List.mem_cons_of_mem st hst', heq⟩

theorem append_ne_empty (a b : String) (h : a.data ≠ []) : a ++ b ≠ "" := by
  intro hc
  apply h
  have hd : a.data ++ b.data = [] := congrArg String.data hc
  exact (List.append_eq_nil.mp hd).1

/-- C9: every result either Twitter path or the YouTube path returns has the
platform tag set and a non-empty url (the primary Twitter path drops items
without a usable link); and — assuming the backend reports non-negative
engagement counters — the score is present and non-negative. -/
theorem C9_result_invariants
    (be : TwitterBackend) (ybe : YouTubeBackend) (q : String) (n : Nat) :
    (∀ uf rs r, twitterSearch be q n uf = .ok rs → r ∈ rs →
      r.platform = "Twitter" ∧ r.url ≠ ""
      ∧ ((∀ q' c tws, be.search_tweets q' c = .ok tws →
            ∀ t ∈ tws, 0 ≤ t.favorite_count ∧ 0 ≤ t.retweet_count) →
          ∃ sc, r.score = some sc ∧ 0 ≤ sc))
    ∧ (∀ rs r, youtubeSearch ybe q n = .ok rs → r ∈ rs →
      r.platform = "YouTube" ∧ r.url ≠ ""
      ∧ ((∀ ids vits, ybe.videos_list ids = .ok vits →
            ∀ it ∈ vits, ∀ v, it.viewCount = some v → 0 ≤ v) →
          ∃ sc, r.score = some sc ∧ 0 ≤ sc)) := by
  constructor
  · intro uf rs r hok hmem
    have hfromApi : ∀ tweets, be.search_tweets (twitterQuery q) (n * 2) = .ok tweets →
        r ∈ tweetLoop n tweets [] →
        r.platform = "Twitter" ∧ r.url ≠ ""
        ∧ ((∀ q' c tws, be.search_tweets q' c = .ok tws →
              ∀ t ∈ tws, 0 ≤ t.favorite_count ∧ 0 ≤ t.retweet_count) →
            ∃ sc, r.score = some sc ∧ 0 ≤ sc) := by
      intro tweets htw hr
      rcases tweetLoop_mem n tweets [] r hr with h' | ⟨t, ht, u, hvu, hu, heq⟩
      · exact absurd h' (List.not_mem_nil r)
      · subst heq
        refine ⟨rfl, hu, ?_⟩
        intro hcnt
        have hpos := hcnt (twitterQuery q) (n * 2) tweets htw t ht
        exact ⟨t.favorite_count + t.retweet_count, rfl,
          add_nonneg hpos.1 hpos.2⟩
    have hfromScrape : ∀ stweets : List ScrapeTweet,
        r ∈ scrapeLoop be.now n (stweets.take n) [] →
        r.platform = "Twitter" ∧ r.url ≠ ""
        ∧ ((∀ q' c tws, be.search_tweets q' c = .ok tws →
              ∀ t ∈ tws, 0 ≤ t.favorite_count ∧ 0 ≤ t.retweet_count) →
            ∃ sc, r.score = some sc ∧ 0 ≤ sc) := by
      intro stweets hr
      rcases scrapeLoop_mem be.now n (stweets.take n) [] r hr with h' | ⟨st, _, heq⟩
      · exact absurd h' (List.not_mem_nil r)
      · subst heq
        refine ⟨rfl, append_ne_empty _ _ (by decide), ?_⟩
        intro _
        exact ⟨0, rfl, le_refl 0⟩
    unfold twitterSearch at hok
    cases hsa : searchApi be q n with
    | ok rs' =>
        rw [hsa] at hok
        have hrs : rs' = rs := Except.ok.inj hok
        subst hrs
        unfold searchApi at hsa
        cases htw : be.search_tweets (twitterQuery q) (n * 2) with
        | error msg => rw [htw] at hsa; exact absurd hsa (by simp)
        | ok tweets =>
            rw [htw] at hsa
            have := Except.ok.inj hsa
            exact hfromApi tweets htw (this ▸ hmem)
    | error e =>
        rw [hsa] at hok
        dsimp only at hok
        by_cases hk : e.kind.isAPIError = true
        · rw [if_pos hk] at hok
          cases uf with
          | false => exact absurd hok (by simp)
          | true =>
              simp only [if_true] at hok
              cases hsf : scrapeFallback be q n e with
              | error fe => rw [hsf] at hok; exact absurd hok (by simp)
              | ok rs' =>
                  rw [hsf] at hok
                  have hrs : rs' = rs := Except.ok.inj hok
                  subst hrs
                  unfold scrapeFallback at hsf
                  cases hsg : be.scrape_get (twitterScrapeUrl q) with
                  | error netMsg => rw [hsg] at hsf; exact absurd hsf (by simp)
                  | ok stweets =>
                      rw [hsg] at hsf
                      have := Except.ok.inj hsf
                      exact hfromScrape stweets (this ▸ hmem)
        · rw [if_neg hk] at hok
          exact absurd hok (by simp)
  · intro rs r hok hmem
    unfold youtubeSearch at hok
    cases h1 : ybe.search_list (youtubeQuery q) n with
    | error msg => rw [h1] at hok; exact absurd hok (by simp)
    | ok sitems =>
        rw [h1] at hok
        by_cases hemp : (sitems.filterMap SearchItem.videoId).isEmpty = true
        · simp only [hemp, if_true] at hok
          have hrs : rs = [] := (Except.ok.inj hok).symm
          subst hrs
          exact absurd hmem (List.not_mem_nil r)
        · simp only [hemp, Bool.false_eq_true, if_false] at hok
          cases h2 : ybe.videos_list (String.intercalate ","
              (sitems.filterMap SearchItem.videoId)) with
          | error msg => rw [h2] at hok; exact absurd hok (by simp)
          | ok vitems =>
              rw [h2] at hok
              have hrs : rs = vitems.map mkYtResult := (Except.ok.inj hok).symm
              subst hrs
              rcases List.mem_map.mp hmem with ⟨it, hit, heq⟩
              subst heq
              refine ⟨rfl, append_ne_empty _ _ (by decide), ?_⟩
              intro hcnt
              refine ⟨it.viewCount.getD 0, rfl, ?_⟩
              cases hvc : it.viewCount with
              | none => simp
              | some v =>
                  simp only [Option.getD_some]
                  exact hcnt _ vitems h2 it hit v hvc

theorem C9_result_invariants_witness :
    twitterSearch beW5 "q" 1 true = .ok [mkTweetResult tweetV "https://t.co/v1"]
    ∧ (mkTweetResult tweetV "https://t.co/v1").platform = "Twitter"
    ∧ (mkTweetResult tweetV "https://t.co/v1").url ≠ ""
    ∧ (∃ sc, (mkTweetResult tweetV "https://t.co/v1").score = some sc ∧ 0 ≤ sc)
    ∧ youtubeSearch ybeC4 "q" 1 = .ok [mkYtResult vItemLow]
    ∧ (mkYtResult vItemLow).platform = "YouTube"
    ∧ (mkYtResult vItemLow).url ≠ ""
    ∧ (∃ sc, (mkYtResult vItemLow).score = some sc ∧ 0 ≤ sc) := by
  have h := C9_result_invariants beW5 ybeC4 "q" 1
  have htw : twitterSearch beW5 "q" 1 true =
      .ok [mkTweetResult tweetV "https://t.co/v1"] := by decide
  have hyt : youtubeSearch ybeC4 "q" 1 = .ok [mkYtResult vItemLow] := by decide
  have ht := h.1 true [mkTweetResult tweetV "https://t.co/v1"]
    (mkTweetResult tweetV "https://t.co/v1") htw (List.mem_singleton.mpr rfl)
  have hy := h.2 [mkYtResult vItemLow] (mkYtResult vItemLow) hyt
    (List.mem_singleton.mpr rfl)
  have hcnt : ∀ q' c tws, beW5.search_tweets q' c = .ok tws →
      ∀ t ∈ tws, 0 ≤ t.favorite_count ∧ 0 ≤ t.retweet_count := by
    intro q' c tws htws t ht
    have hl : [tweetV, tweetV] = tws := Except.ok.inj htws
    subst hl
    have heq : t = tweetV := by simpa using ht
    subst heq
    exact ⟨by decide, by decide⟩
  have hvc : ∀ ids vits, ybeC4.videos_list ids = .ok vits →
      ∀ it ∈ vits, ∀ v, it.viewCount = some v → 0 ≤ v := by
    intro ids vits hvits it hit v hv
    have hl : [vItemLow] = vits := Except.ok.inj hvits
    subst hl
    have heq : it = vItemLow := by simpa using hit
    subst heq
    have hv2 : (some (49999 : Int)) = some v := hv
    have hv3 : (49999 : Int) = v := Option.some.inj hv2
    omega
  exact ⟨htw, ht.1, ht.2.1, ht.2.2 hcnt, hyt, hy.1, hy.2.1, hy.2.2 hvc⟩

/-- The aggregator reads a missing `score` as `0` and a missing `upload_date`
as `""` (`x.get("score", 0)`, `x.get("upload_date", "")`). -/
def fillDefaults (r : Result) : Result :=
  ⟨r.platform, r.title, r.url, some (r.upload_date.getD ""),
    some (r.score.getD 0), r.description, r.views, r.likes⟩

/-- C10: a result missing `score` is ordered as if its score were `0`, and
one missing `upload_date` as if it were the empty string: filling in those
defaults changes no sort key, and sorting commutes with filling them in. In
this typed embedding the sort is a total function, so it cannot raise for
missing fields (the Python comparability proviso holds because all present
scores are ints and all present upload dates are strings). -/
theorem C10_missing_fields_default :
    (∀ r : Result, (fillDefaults r).key = r.key)
    ∧ ∀ l : List Result,
        sortResults (l.map fillDefaults) = (sortResults l).map fillDefaults := by
  have hkey : ∀ r : Result, (fillDefaults r).key = r.key := fun r => rfl
  refine ⟨hkey, ?_⟩
  intro l
  have hl : ∀ a ∈ l, ∀ b ∈ l,
      ResOrder a b ↔ ResOrder (fillDefaults a) (fillDefaults b) := by
    intro a _ b _
    unfold ResOrder
    rw [hkey a, hkey b]
  exact (List.map_insertionSort _ _ fillDefaults l hl).symm

end Highlight
